import Mathlib

/-!
Shallow embedding of `src/bitaxe_hashrate_benchmark.py`: the safety checks and
sample aggregation of `benchmark_iteration`, the sweep loop's state update, the
reset/recovery flag machinery, and the final result ranking.  Telemetry values
are modelled as rationals, device settings as integers, and absent JSON fields
as `Option`.
-/

/-! ### Configuration constants (lines 36-55 of the source) -/

def voltage_increment : ℤ := 20
def frequency_increment : ℤ := 25
def benchmark_time : ℕ := 600
def sample_interval : ℕ := 15
def max_temp : ℚ := 66
def max_allowed_voltage : ℤ := 1400
def max_allowed_frequency : ℤ := 1200
def max_vr_temp : ℚ := 86
def min_input_voltage : ℚ := 4800
def max_input_voltage : ℚ := 5500
def max_power : ℚ := 40
def min_allowed_voltage : ℤ := 1000
def min_allowed_frequency : ℤ := 400

/-- `total_samples = benchmark_time // sample_interval` (line 192). -/
def total_samples : ℕ := benchmark_time / sample_interval

/-- On a failed capability fetch, `small_core_count` and `asic_count` both
fall back to `0` (lines 103-104). -/
def fallback_core_counts : ℤ × ℤ := (0, 0)

/-! ### Telemetry samples and the per-sample safety checks -/

/-- The fields of one `/api/system/info` response that `benchmark_iteration`
reads; `info.get(...)` yields `None` for an absent field, hence `Option`. -/
structure SystemInfo where
  temp : Option ℚ
  vrTemp : Option ℚ
  voltage : Option ℚ
  hashRate : Option ℚ
  power : Option ℚ

/-- Outcome of the per-sample check block (lines 196-244): an early `return`
with a failure reason, a Python `TypeError` (comparing `None` with an `int`),
or accumulation of the sample into the running lists. -/
inductive SampleOutcome where
  | fail (reason : String)
  | typeError
  | accum (hashRate temp power : ℚ) (vrTemp : Option ℚ)
deriving DecidableEq

/-- The body of one loop iteration of `benchmark_iteration` (lines 196-244),
check by check in source order.  `none` for the whole response models
`get_system_info()` returning `None`.  An absent `voltage` field reaches
`voltage < min_input_voltage`, which in Python 3 raises `TypeError`. -/
def sampleCheck : Option SystemInfo → SampleOutcome
  | none => .fail "SYSTEM_INFO_FAILURE"
  | some info =>
    match info.temp with
    | none => .fail "TEMPERATURE_DATA_FAILURE"
    | some temp =>
      if temp < 5 then .fail "TEMPERATURE_BELOW_5"
      else if temp ≥ max_temp then .fail "CHIP_TEMP_EXCEEDED"
      else if (match info.vrTemp with
               | some v => decide (v ≥ max_vr_temp)
               | none => false) then .fail "VR_TEMP_EXCEEDED"
      else
        match info.voltage with
        | none => .typeError
        | some voltage =>
          if voltage < min_input_voltage then .fail "INPUT_VOLTAGE_BELOW_MIN"
          else if voltage > max_input_voltage then .fail "INPUT_VOLTAGE_ABOVE_MAX"
          else
            match info.hashRate, info.power with
            | some hr, some p =>
              if p > max_power then .fail "POWER_CONSUMPTION_EXCEEDED"
              else .accum hr temp p
                (match info.vrTemp with
                 | some v => if v > 0 then some v else none
                 | none => none)
            | _, _ => .fail "HASHRATE_POWER_DATA_FAILURE"

/-! ### The sampling loop and aggregation -/

/-- Result of the sampling loop: the four accumulated lists, or an early
return with a reason, or a propagating Python exception. -/
inductive Collected where
  | done (hashRates temps powers vrTemps : List ℚ)
  | fail (reason : String)
  | pyError
deriving DecidableEq

/-- The sampling loop of `benchmark_iteration` (lines 195-263): process the
window's responses in order, stopping at the first failing sample. -/
def collectLoop : List (Option SystemInfo) → List ℚ → List ℚ → List ℚ → List ℚ → Collected
  | [], hs, ts, ps, vs => .done hs ts ps vs
  | i :: rest, hs, ts, ps, vs =>
    match sampleCheck i with
    | .fail r => .fail r
    | .typeError => .pyError
    | .accum hr t p vr =>
      collectLoop rest (hs ++ [hr]) (ts ++ [t]) (ps ++ [p])
        (vs ++ (match vr with | some v => [v] | none => []))

/-- `expected_hashrate = frequency * ((small_core_count * asic_count) / 1000)`
(line 193). -/
def expected_hashrate (frequency scc ac : ℤ) : ℚ :=
  (frequency : ℚ) * (((scc : ℚ) * (ac : ℚ)) / 1000)

/-- `hashrate_within_tolerance = (average_hashrate >= expected_hashrate * 0.94)`
(line 293). -/
def hashrate_within_tolerance (avgHashrate expected : ℚ) : Bool :=
  decide (avgHashrate ≥ expected * (94 / 100))

/-- The boolean comparison used to model Python's ascending `sorted`. -/
def qle (a b : ℚ) : Bool := decide (a ≤ b)

/-- `sorted(hash_rates)[3:-3]` (lines 267-268): sort ascending, drop the
first 3 elements and the last 3. -/
def trimmed_hashrates (l : List ℚ) : List ℚ :=
  ((l.mergeSort qle).drop 3).take (l.length - 6)

/-- Result of one call to `benchmark_iteration`: the success tuple
`(average_hashrate, average_temperature, efficiency_jth,
hashrate_within_tolerance, average_vr_temp)`, a failure with reason (the
tuple of `None`s plus `error_reason`), or a propagating Python exception. -/
inductive IterResult where
  | ok (avgHashrate avgTemp efficiencyJTH : ℚ) (withinTol : Bool) (avgVrTemp : Option ℚ)
  | fail (reason : String)
  | pyError
deriving DecidableEq

/-- Aggregation over the collected lists (lines 265-304): trimmed hashrate
mean, warm-up-trimmed temperature means, plain power mean, the zero-hashrate
guard, efficiency, and the tolerance flag.  An empty list fed to
`sum(..)/len(..)` is a Python `ZeroDivisionError`, modelled as `pyError`. -/
def aggregate (expected : ℚ) (hs ts ps vs : List ℚ) : IterResult :=
  if hs ≠ [] ∧ ts ≠ [] ∧ ps ≠ [] then
    let trimmedH := trimmed_hashrates hs
    if trimmedH = [] then .pyError else
    let avgH := trimmedH.sum / trimmedH.length
    let trimmedT := (ts.mergeSort qle).drop 6
    if trimmedT = [] then .pyError else
    let avgT := trimmedT.sum / trimmedT.length
    if vs ≠ [] ∧ (vs.mergeSort qle).drop 6 = [] then .pyError else
    let avgVr : Option ℚ :=
      if vs = [] then none
      else some (((vs.mergeSort qle).drop 6).sum / ((vs.mergeSort qle).drop 6).length)
    let avgP := ps.sum / ps.length
    if avgH > 0 then
      .ok avgH avgT (avgP / (avgH / 1000)) (hashrate_within_tolerance avgH expected) avgVr
    else .fail "ZERO_HASHRATE"
  else .fail "NO_DATA_COLLECTED"

/-- `benchmark_iteration(core_voltage, frequency)` over a window of telemetry
responses (the device's answers to the `total_samples` info requests). -/
def benchmark_iteration (scc ac frequency : ℤ) (infos : List (Option SystemInfo)) : IterResult :=
  match collectLoop infos [] [] [] [] with
  | .fail r => .fail r
  | .pyError => .pyError
  | .done hs ts ps vs => aggregate (expected_hashrate frequency scc ac) hs ts ps vs

/-! ### The main sweep loop (lines 347-388) -/

/-- One entry of the `results` list (lines 355-367). -/
structure BenchResult where
  coreVoltage : ℤ
  frequency : ℤ
  averageHashRate : ℚ
  averageTemperature : ℚ
  efficiencyJTH : ℚ
  averageVRTemp : Option ℚ
deriving DecidableEq

/-- State of the sweep loop: the settings under test plus the results list. -/
structure LoopState where
  voltage : ℤ
  frequency : ℤ
  results : List BenchResult
deriving DecidableEq

/-- What the bottom of a loop iteration does: continue with new current
settings, `break`, or let a Python exception propagate. -/
inductive StepResult where
  | next (s : LoopState)
  | halt (results : List BenchResult)
  | raise (results : List BenchResult)
deriving DecidableEq

/-- The decision logic at lines 354-386: on a successful measurement append
it to `results` and either raise frequency (within tolerance) or raise
voltage and retreat one frequency step (not within tolerance), `break`-ing
at the configured ceilings; on a failed measurement `break` immediately. -/
def sweepStep (s : LoopState) (m : IterResult) : StepResult :=
  match m with
  | .ok avgH avgT eff withinTol avgVr =>
    let r : BenchResult :=
      { coreVoltage := s.voltage, frequency := s.frequency, averageHashRate := avgH,
        averageTemperature := avgT, efficiencyJTH := eff, averageVRTemp := avgVr }
    let rs := s.results ++ [r]
    if withinTol then
      if s.frequency + frequency_increment ≤ max_allowed_frequency then
        .next ⟨s.voltage, s.frequency + frequency_increment, rs⟩
      else .halt rs
    else
      if s.voltage + voltage_increment ≤ max_allowed_voltage then
        .next ⟨s.voltage + voltage_increment, s.frequency - frequency_increment, rs⟩
      else .halt rs
  | .fail _ => .halt s.results
  | .pyError => .raise s.results

/-- The (voltage, frequency) points at which the loop calls
`set_system_settings`.  The base case carries the startup validation of the
initial point (lines 58-70); a successor point is reached when some telemetry
window makes `sweepStep` continue and the `while` guard (line 350) accepts
the new point. -/
inductive ReachablePoint (scc ac v0 f0 : ℤ) : ℤ → ℤ → Prop where
  | init :
      min_allowed_voltage ≤ v0 → v0 ≤ max_allowed_voltage →
      min_allowed_frequency ≤ f0 → f0 ≤ max_allowed_frequency →
      ReachablePoint scc ac v0 f0 v0 f0
  | step (v f v' f' : ℤ) (rs rs' : List BenchResult) (infos : List (Option SystemInfo)) :
      ReachablePoint scc ac v0 f0 v f →
      sweepStep ⟨v, f, rs⟩ (benchmark_iteration scc ac f infos) = .next ⟨v', f', rs'⟩ →
      v' ≤ max_allowed_voltage → f' ≤ max_allowed_frequency →
      ReachablePoint scc ac v0 f0 v' f'

/-! ### Recovery: the one-shot reset guard (lines 106-133, 390-409, 479-497) -/

/-- The two module-level flags guarding the device-restoring action, plus a
count of how many times a restore (`reset_to_best_setting` or
`set_system_settings` with restart) has been performed. -/
structure RecoveryState where
  system_reset_done : Bool
  handling_interrupt : Bool
  restoreCount : ℕ
deriving DecidableEq

/-- `handle_sigint` (lines 109-130): ignore the signal when already handling
one or already reset; otherwise restore, then set `system_reset_done` and
clear `handling_interrupt` in the `finally` block. -/
def handle_sigint (s : RecoveryState) : RecoveryState :=
  if s.handling_interrupt || s.system_reset_done then s
  else { system_reset_done := true, handling_interrupt := false,
         restoreCount := s.restoreCount + 1 }

/-- The `except Exception` handler (lines 390-398): restores the device
(best settings or defaults) without consulting or setting
`system_reset_done`. -/
def exceptBlock (s : RecoveryState) : RecoveryState :=
  { s with restoreCount := s.restoreCount + 1 }

/-- The `finally` block (lines 399-409): restore only when
`system_reset_done` is still unset, then set it. -/
def finallyBlock (s : RecoveryState) : RecoveryState :=
  if s.system_reset_done then s
  else { s with system_reset_done := true, restoreCount := s.restoreCount + 1 }

/-- `cleanup_and_exit` (lines 479-497): same guard as the `finally` block. -/
def cleanup_and_exit (s : RecoveryState) : RecoveryState :=
  if s.system_reset_done then s
  else { s with system_reset_done := true, restoreCount := s.restoreCount + 1 }

/-! ### Final ranking (lines 413-415) -/

/-- Comparison used for `sorted(results, key=averageHashRate, reverse=True)`:
Python's sort is stable, and `reverse=True` sorts descending while keeping
equal keys in original order, which is stable merge sort under `(· ≥ ·)` on
the key. -/
def hashDesc (a b : BenchResult) : Bool := decide (b.averageHashRate ≤ a.averageHashRate)

/-- Comparison for `sorted(results, key=efficiencyJTH, reverse=False)`. -/
def effAsc (a b : BenchResult) : Bool := decide (a.efficiencyJTH ≤ b.efficiencyJTH)

/-- `top_5_results = sorted(results, key=averageHashRate, reverse=True)[:5]`
(line 414). -/
def top_5_results (rs : List BenchResult) : List BenchResult :=
  (rs.mergeSort hashDesc).take 5

/-- `top_5_efficient_results = sorted(results, key=efficiencyJTH)[:5]`
(line 415). -/
def top_5_efficient_results (rs : List BenchResult) : List BenchResult :=
  (rs.mergeSort effAsc).take 5

/-! ### C2: the order of the per-sample checks -/

/-- C2 counterexample: a sample whose `hashRate` and `power` fields are both
missing but whose VR temperature is over the limit reports
`VR_TEMP_EXCEEDED`, not the missing-data reason — so the missing-field check
does not precede the VR-temperature check as the claim states. -/
theorem C2_counterexample :
    sampleCheck (some { temp := some 60, vrTemp := some 90, voltage := some 5000,
                        hashRate := none, power := none }) = .fail "VR_TEMP_EXCEEDED" ∧
    "VR_TEMP_EXCEEDED" ≠ "HASHRATE_POWER_DATA_FAILURE" := by
  constructor
  · norm_num [sampleCheck, max_temp, max_vr_temp]
  · decide

/-- C2 (amended): the actual priority order of the per-sample checks.  A
missing `temp` field is reported before everything; the VR-temperature check
fires even when `hashRate`/`power` are missing; the input-voltage check fires
even when `hashRate`/`power` are missing; only a sample passing all of the
temperature, VR and input-voltage checks reports missing `hashRate`/`power`
data, and that report precedes the power-ceiling check. -/
theorem C2_check_priority_amended :
    (∀ info : SystemInfo, info.temp = none →
        sampleCheck (some info) = .fail "TEMPERATURE_DATA_FAILURE")
    ∧ (∀ (info : SystemInfo) (t v : ℚ), info.temp = some t → 5 ≤ t → t < max_temp →
        info.vrTemp = some v → max_vr_temp ≤ v →
        sampleCheck (some info) = .fail "VR_TEMP_EXCEEDED")
    ∧ (∀ (info : SystemInfo) (t u : ℚ), info.temp = some t → 5 ≤ t → t < max_temp →
        (∀ v, info.vrTemp = some v → v < max_vr_temp) →
        info.voltage = some u → u < min_input_voltage →
        sampleCheck (some info) = .fail "INPUT_VOLTAGE_BELOW_MIN")
    ∧ (∀ (info : SystemInfo) (t u : ℚ), info.temp = some t → 5 ≤ t → t < max_temp →
        (∀ v, info.vrTemp = some v → v < max_vr_temp) →
        info.voltage = some u → min_input_voltage ≤ u → u ≤ max_input_voltage →
        (info.hashRate = none ∨ info.power = none) →
        sampleCheck (some info) = .fail "HASHRATE_POWER_DATA_FAILURE") := by
  refine ⟨?_, ?_, ?_, ?_⟩
  · intro info ht
    simp only [sampleCheck, ht]
  · intro info t v ht h5 hmax hvr hvrge
    simp only [sampleCheck, ht, hvr]
    rw [if_neg (by simpa using not_lt.mpr h5), if_neg (by simpa using not_le.mpr hmax),
      if_pos (by simpa using hvrge)]
  · intro info t u ht h5 hmax hvr hu hulow
    simp only [sampleCheck, ht, hu]
    rw [if_neg (by simpa using not_lt.mpr h5), if_neg (by simpa using not_le.mpr hmax),
      if_neg ?vrcond, if_pos (by simpa using hulow)]
    case vrcond =>
      cases hv : info.vrTemp with
      | none => simp
      | some v => simpa using not_le.mpr (hvr v hv)
  · intro info t u ht h5 hmax hvr hu hulow huhigh hmiss
    simp only [sampleCheck, ht, hu]
    rw [if_neg (by simpa using not_lt.mpr h5), if_neg (by simpa using not_le.mpr hmax),
      if_neg ?vrcond2, if_neg (by simpa using not_lt.mpr hulow),
      if_neg (by simpa using not_lt.mpr huhigh)]
    case vrcond2 =>
      cases hv : info.vrTemp with
      | none => simp
      | some v => simpa using not_le.mpr (hvr v hv)
    rcases hmiss with hh | hp
    · simp only [hh]
    · cases hh : info.hashRate <;> simp only [hp]

/-- C2 amended witness: each clause of the amended priority statement,
instantiated at a concrete telemetry sample. -/
theorem C2_check_priority_amended_witness :
    sampleCheck (some { temp := none, vrTemp := some 90, voltage := none,
                        hashRate := none, power := none }) = .fail "TEMPERATURE_DATA_FAILURE"
    ∧ sampleCheck (some { temp := some 60, vrTemp := some 95, voltage := none,
                          hashRate := none, power := none }) = .fail "VR_TEMP_EXCEEDED"
    ∧ sampleCheck (some { temp := some 60, vrTemp := none, voltage := some 4000,
                          hashRate := none, power := none }) = .fail "INPUT_VOLTAGE_BELOW_MIN"
    ∧ sampleCheck (some { temp := some 60, vrTemp := none, voltage := some 5000,
                          hashRate := none, power := some 10 }) = .fail "HASHRATE_POWER_DATA_FAILURE" :=
  ⟨C2_check_priority_amended.1 _ rfl,
   C2_check_priority_amended.2.1 _ 60 95 rfl (by norm_num) (by norm_num [max_temp]) rfl
     (by norm_num [max_vr_temp]),
   C2_check_priority_amended.2.2.1 _ 60 4000 rfl (by norm_num) (by norm_num [max_temp])
     (by simp) rfl (by norm_num [min_input_voltage]),
   C2_check_priority_amended.2.2.2 _ 60 5000 rfl (by norm_num) (by norm_num [max_temp])
     (by simp) rfl (by norm_num [min_input_voltage]) (by norm_num [max_input_voltage])
     (Or.inl rfl)⟩

/-! ### C3: a sample without the input-voltage field -/

/-- C3: a telemetry sample whose optional `voltage` field is absent but whose
other readings are nominal does not have the input-voltage check skipped:
evaluation reaches `voltage < min_input_voltage` with `voltage = None`, which
raises `TypeError` in Python 3 and aborts the run through the top-level
exception handler. -/
theorem C3_absent_voltage_raises :
    sampleCheck (some { temp := some 60, vrTemp := some 50, voltage := none,
                        hashRate := some 500, power := some 10 }) = .typeError := by
  norm_num [sampleCheck, max_temp, max_vr_temp]

/-! ### C4: the one-shot reset guard -/

/-- C4: the double-interrupt path is guarded (a second `handle_sigint` and a
`finally` block after an interrupt perform no further restore), but the
unexpected-exception path restores the device without consulting or setting
`system_reset_done`, so the `finally` block that follows it restores a second
time: two device-restoring actions in one process run. -/
theorem C4_restore_twice_on_exception :
    (finallyBlock (exceptBlock ⟨false, false, 0⟩)).restoreCount = 2
    ∧ (handle_sigint (handle_sigint ⟨false, false, 0⟩)).restoreCount = 1
    ∧ (finallyBlock (handle_sigint ⟨false, false, 0⟩)).restoreCount = 1
    ∧ (cleanup_and_exit (handle_sigint ⟨false, false, 0⟩)).restoreCount = 1 := by
  refine ⟨?_, ?_, ?_, ?_⟩ <;> rfl

/-! ### Shared facts about the sort comparison -/

lemma qle_trans : ∀ (a b c : ℚ), qle a b → qle b c → qle a c := by
  intro a b c hab hbc
  simp only [qle, decide_eq_true_eq] at *
  exact le_trans hab hbc

lemma qle_total : ∀ (a b : ℚ), qle a b || qle b a := by
  intro a b
  simpa [qle] using le_total a b

/-! ### C6: zero average hashrate -/

/-- C6: if a sample window completes (every sample accumulated), the trimmed
lists are non-empty (no `ZeroDivisionError`), and the trimmed average
hashrate is `0`, then `benchmark_iteration` returns the failure reason
`ZERO_HASHRATE`; the efficiency division is never reached. -/
theorem C6_zero_hashrate_fails :
    ∀ (scc ac f : ℤ) (infos : List (Option SystemInfo)) (hs ts ps vs : List ℚ),
      collectLoop infos [] [] [] [] = .done hs ts ps vs →
      hs ≠ [] → ts ≠ [] → ps ≠ [] →
      trimmed_hashrates hs ≠ [] →
      (ts.mergeSort qle).drop 6 ≠ [] →
      (vs = [] ∨ (vs.mergeSort qle).drop 6 ≠ []) →
      (trimmed_hashrates hs).sum / ((trimmed_hashrates hs).length : ℚ) = 0 →
      benchmark_iteration scc ac f infos = .fail "ZERO_HASHRATE" := by
  intro scc ac f infos hs ts ps vs hcol hhs hts hps htrim htd hvr havg
  have hv2 : ¬(vs ≠ [] ∧ (vs.mergeSort qle).drop 6 = []) := by
    rcases hvr with h | h
    · rintro ⟨hne, _⟩; exact hne h
    · rintro ⟨_, he⟩; exact h he
  have hz : ¬((trimmed_hashrates hs).sum / ((trimmed_hashrates hs).length : ℚ) > 0) := by
    rw [havg]; exact lt_irrefl 0
  simp only [benchmark_iteration, hcol, aggregate]
  rw [if_pos ⟨hhs, hts, hps⟩, if_neg htrim, if_neg htd, if_neg hv2, if_neg hz]

/-- C6 witness: a 7-sample window whose hashrate readings are all `0`. -/
theorem C6_zero_hashrate_fails_witness :
    benchmark_iteration 1000 1 400
      (List.replicate 7 (some { temp := some 60, vrTemp := none, voltage := some 5000,
                                hashRate := some 0, power := some 10 })) = .fail "ZERO_HASHRATE" :=
  C6_zero_hashrate_fails 1000 1 400 _
    [0,0,0,0,0,0,0] [60,60,60,60,60,60,60] [10,10,10,10,10,10,10] []
    (by norm_num [collectLoop, sampleCheck, max_temp, min_input_voltage, max_input_voltage,
      max_power, List.replicate])
    (by simp) (by simp) (by simp)
    (by rw [trimmed_hashrates, List.mergeSort_of_sorted (by decide)]; simp)
    (by rw [List.mergeSort_of_sorted (by decide)]; simp)
    (Or.inl rfl)
    (by rw [trimmed_hashrates, List.mergeSort_of_sorted (by decide)]; norm_num)

/-! ### C7: the trimmed hashrate mean -/

/-- C7: for a window of at least 7 hashrate readings, the trimmed list is the
sorted readings with exactly the 3 lowest and the 3 highest removed: it has
`n - 6` elements (exactly 1 when `n = 7`), it is non-empty, the sorted list
decomposes as 3 lowest ++ trimmed ++ 3 highest, the sort is ascending, and a
successful aggregation reports exactly the arithmetic mean of the trimmed
list. -/
theorem C7_trimmed_mean_spec :
    ∀ l : List ℚ, 7 ≤ l.length →
      trimmed_hashrates l ≠ []
      ∧ (trimmed_hashrates l).length = l.length - 6
      ∧ (l.length = 7 → (trimmed_hashrates l).length = 1)
      ∧ l.mergeSort qle =
          (l.mergeSort qle).take 3 ++ trimmed_hashrates l ++ (l.mergeSort qle).drop (l.length - 3)
      ∧ (l.mergeSort qle).Pairwise (· ≤ ·)
      ∧ (∀ (expected : ℚ) (ts ps vs : List ℚ) (a t e : ℚ) (w : Bool) (vr : Option ℚ),
          aggregate expected l ts ps vs = .ok a t e w vr →
          a = (trimmed_hashrates l).sum / ((trimmed_hashrates l).length : ℚ)) := by
  intro l hlen
  have hslen : (l.mergeSort qle).length = l.length := List.length_mergeSort l
  have hlength : (trimmed_hashrates l).length = l.length - 6 := by
    simp only [trimmed_hashrates, List.length_take, List.length_drop, hslen]
    omega
  refine ⟨?_, hlength, fun h7 => by rw [hlength, h7], ?_, ?_, ?_⟩
  · intro hnil
    have := congrArg List.length hnil
    rw [hlength] at this
    simp at this
    omega
  · conv_lhs => rw [← List.take_append_drop 3 (l.mergeSort qle)]
    rw [List.append_assoc]
    congr 1
    have hdrop : (l.mergeSort qle).drop (l.length - 3) =
        (((l.mergeSort qle).drop 3).drop (l.length - 6)) := by
      rw [List.drop_drop]
      congr 1
      omega
    rw [hdrop, trimmed_hashrates, List.take_append_drop]
  · exact (List.sorted_mergeSort qle_trans qle_total l).imp
      (fun h => by simpa [qle] using h)
  · intro expected ts ps vs a t e w vr h
    simp only [aggregate] at h
    split_ifs at h
    all_goals first
      | (simp only [IterResult.ok.injEq] at h; exact h.1.symm)
      | simp at h

/-- C7 witness: the trimmed mean facts at a concrete 7-element window. -/
theorem C7_trimmed_mean_spec_witness :
    7 ≤ ([1,2,3,4,5,6,7] : List ℚ).length
    ∧ (trimmed_hashrates [1,2,3,4,5,6,7]).length = 1
    ∧ trimmed_hashrates ([1,2,3,4,5,6,7] : List ℚ) ≠ [] :=
  ⟨by norm_num,
   (C7_trimmed_mean_spec [1,2,3,4,5,6,7] (by norm_num)).2.2.1 (by norm_num),
   (C7_trimmed_mean_spec [1,2,3,4,5,6,7] (by norm_num)).1⟩

/-! ### C8: the tolerance judgement -/

/-- C8: the within-tolerance judgement is
`averageHashRate ≥ expectedHashRate * 0.94` with
`expectedHashRate = frequency * (smallCoreCount * asicCount / 1000)`
(equivalently, with denominators cleared,
`94 * frequency * smallCoreCount * asicCount ≤ 100000 * averageHashRate`);
at `expectedHashRate = 500`, an average of 469 fails and 471 passes. -/
theorem C8_tolerance_spec :
    (∀ (avgH : ℚ) (f scc ac : ℤ),
        hashrate_within_tolerance avgH (expected_hashrate f scc ac) = true ↔
          94 * (f : ℚ) * (scc : ℚ) * (ac : ℚ) ≤ 100000 * avgH)
    ∧ hashrate_within_tolerance 469 500 = false
    ∧ hashrate_within_tolerance 471 500 = true := by
  refine ⟨?_, by norm_num [hashrate_within_tolerance], by norm_num [hashrate_within_tolerance]⟩
  intro avgH f scc ac
  simp only [hashrate_within_tolerance, expected_hashrate, decide_eq_true_eq, ge_iff_le]
  rw [show (f : ℚ) * ((scc : ℚ) * (ac : ℚ) / 1000) * (94 / 100) =
        94 * (f : ℚ) * (scc : ℚ) * (ac : ℚ) / 100000 by ring]
  rw [div_le_iff₀ (by norm_num : (0:ℚ) < 100000)]
  constructor <;> intro h <;> linarith

/-! ### C5: a failing sample aborts the iteration and the sweep -/

/-- If every sample of `pre` accumulates and sample `i` fails with reason
`r`, the sampling loop stops at `i` with reason `r`, whatever was
accumulated before and whatever comes after. -/
lemma collectLoop_fail_of_middle :
    ∀ (pre : List (Option SystemInfo)) (i : Option SystemInfo)
      (post : List (Option SystemInfo)) (r : String) (hs ts ps vs : List ℚ),
      (∀ x ∈ pre, ∃ h t p vr, sampleCheck x = .accum h t p vr) →
      sampleCheck i = .fail r →
      collectLoop (pre ++ i :: post) hs ts ps vs = .fail r := by
  intro pre
  induction pre with
  | nil =>
    intro i post r hs ts ps vs _ hi
    simp only [List.nil_append, collectLoop, hi]
  | cons x rest ih =>
    intro i post r hs ts ps vs hacc hi
    obtain ⟨h, t, p, vr, hx⟩ := hacc x (List.mem_cons_self x rest)
    simp only [List.cons_append, collectLoop, hx]
    exact ih i post r _ _ _ _ (fun y hy => hacc y (List.mem_cons_of_mem x hy)) hi

/-- C5: if any sample of the window fails a safety or data check with reason
`r` (all earlier samples having accumulated), then `benchmark_iteration`
returns exactly the reason `r` — the partial window accumulated so far is
discarded, never averaged — and the sweep loop `break`s with the results list
unchanged: no measurement is appended and no further point is probed. -/
theorem C5_failure_aborts_sweep :
    ∀ (scc ac v f : ℤ) (rs : List BenchResult) (pre : List (Option SystemInfo))
      (i : Option SystemInfo) (post : List (Option SystemInfo)) (r : String),
      (∀ x ∈ pre, ∃ h t p vr, sampleCheck x = .accum h t p vr) →
      sampleCheck i = .fail r →
      benchmark_iteration scc ac f (pre ++ i :: post) = .fail r
      ∧ sweepStep ⟨v, f, rs⟩ (benchmark_iteration scc ac f (pre ++ i :: post)) = .halt rs := by
  intro scc ac v f rs pre i post r hacc hi
  have hcol := collectLoop_fail_of_middle pre i post r [] [] [] [] hacc hi
  have hb : benchmark_iteration scc ac f (pre ++ i :: post) = .fail r := by
    simp only [benchmark_iteration, hcol]
  exact ⟨hb, by rw [hb]; rfl⟩

/-- C5 witness: a good sample followed by an over-temperature sample aborts
a 2-of-window run with `CHIP_TEMP_EXCEEDED` and halts the sweep. -/
theorem C5_failure_aborts_sweep_witness :
    benchmark_iteration 1000 1 500
      ([some { temp := some 60, vrTemp := none, voltage := some 5000,
               hashRate := some 500, power := some 10 }] ++
        (some { temp := some 70, vrTemp := none, voltage := some 5000,
                hashRate := some 500, power := some 10 }) :: []) = .fail "CHIP_TEMP_EXCEEDED"
    ∧ sweepStep ⟨1150, 500, []⟩
        (benchmark_iteration 1000 1 500
          ([some { temp := some 60, vrTemp := none, voltage := some 5000,
                   hashRate := some 500, power := some 10 }] ++
            (some { temp := some 70, vrTemp := none, voltage := some 5000,
                    hashRate := some 500, power := some 10 }) :: [])) = .halt [] :=
  C5_failure_aborts_sweep 1000 1 1150 500 [] _ _ [] "CHIP_TEMP_EXCEEDED"
    (by
      intro x hx
      simp only [List.mem_singleton] at hx
      subst hx
      exact ⟨500, 60, 10, none,
        by norm_num [sampleCheck, max_temp, min_input_voltage, max_input_voltage, max_power]⟩)
    (by norm_num [sampleCheck, max_temp])

/-! ### C1: bounds on the points the sweep applies -/

/-- C1 counterexample: starting from the valid initial point
(1000 mV, 400 MHz) — both at their configured minima — one iteration whose
measured hashrate is below tolerance makes the backoff transition apply the
point (1020 mV, 375 MHz): its frequency is below
`min_allowed_frequency = 400`, because line 379 subtracts
`frequency_increment` without any lower-bound check. -/
theorem C1_counterexample :
    ReachablePoint 1000 1 1000 400 1020 375 ∧ ¬(min_allowed_frequency ≤ (375 : ℤ)) := by
  constructor
  · have hcol : collectLoop (List.replicate 7
        (some { temp := some 60, vrTemp := none, voltage := some 5000,
                hashRate := some 1, power := some 10 })) [] [] [] [] =
        .done [1,1,1,1,1,1,1] [60,60,60,60,60,60,60] [10,10,10,10,10,10,10] [] := by
      norm_num [collectLoop, sampleCheck, max_temp, min_input_voltage, max_input_voltage,
        max_power, List.replicate]
    have hb : benchmark_iteration 1000 1 400 (List.replicate 7
        (some { temp := some 60, vrTemp := none, voltage := some 5000,
                hashRate := some 1, power := some 10 })) = .ok 1 60 10000 false none := by
      have h1 : ([1,1,1,1,1,1,1] : List ℚ).mergeSort qle = [1,1,1,1,1,1,1] :=
        List.mergeSort_of_sorted (by decide)
      have h2 : ([60,60,60,60,60,60,60] : List ℚ).mergeSort qle = [60,60,60,60,60,60,60] :=
        List.mergeSort_of_sorted (by decide)
      simp only [benchmark_iteration, hcol]
      norm_num [aggregate, trimmed_hashrates, h1, h2, hashrate_within_tolerance,
        expected_hashrate]
      intro h
      exact absurd (h (by simp) (by simp)) (by simp)
    refine ReachablePoint.step 1000 400 1020 375 []
      [{ coreVoltage := 1000, frequency := 400, averageHashRate := 1,
         averageTemperature := 60, efficiencyJTH := 10000, averageVRTemp := none }]
      (List.replicate 7
        (some { temp := some 60, vrTemp := none, voltage := some 5000,
                hashRate := some 1, power := some 10 }))
      (ReachablePoint.init (by decide) (by decide) (by decide) (by decide)) ?_
      (by decide) (by decide)
    rw [hb]
    rfl
  · decide

/-- C1 (amended): every point the sweep loop applies has its voltage within
the configured `[min_allowed_voltage, max_allowed_voltage]` and its frequency
at most `max_allowed_frequency`; the frequency lower bound is not maintained
(the backoff transition may retreat below `min_allowed_frequency`, as the
counterexample shows). -/
theorem C1_bounds_amended :
    ∀ (scc ac v0 f0 v f : ℤ), ReachablePoint scc ac v0 f0 v f →
      min_allowed_voltage ≤ v ∧ v ≤ max_allowed_voltage ∧ f ≤ max_allowed_frequency := by
  intro scc ac v0 f0 v f h
  induction h with
  | init h1 h2 h3 h4 => exact ⟨h1, h2, h4⟩
  | step v f v' f' rs rs' infos hreach hstep hv' hf' ih =>
    refine ⟨?_, hv', hf'⟩
    rcases hm : benchmark_iteration scc ac f infos with ⟨a, t, e, w, vr⟩ | r | _ <;>
      rw [hm] at hstep
    · simp only [sweepStep] at hstep
      split_ifs at hstep
      all_goals
        simp only [StepResult.next.injEq, LoopState.mk.injEq] at hstep
      · rw [← hstep.1]; exact ih.1
      · rw [← hstep.1]
        have h20 : (0 : ℤ) ≤ voltage_increment := by decide
        linarith [ih.1]
    · simp [sweepStep] at hstep
    · simp [sweepStep] at hstep

/-- C1 amended witness: the bounds at the default initial point
(1150 mV, 500 MHz). -/
theorem C1_bounds_amended_witness :
    min_allowed_voltage ≤ (1150 : ℤ) ∧ (1150 : ℤ) ≤ max_allowed_voltage ∧
      (500 : ℤ) ≤ max_allowed_frequency :=
  C1_bounds_amended 0 0 1150 500 1150 500
    (ReachablePoint.init (by decide) (by decide) (by decide) (by decide))

/-! ### C10: a failed capability fetch zeroes the expected hashrate -/

/-- A successful `aggregate` implies a positive average hashrate (the
`ZERO_HASHRATE` guard) and that the reported flag is the tolerance judgement
at that average. -/
lemma aggregate_ok_inv :
    ∀ (expected : ℚ) (hs ts ps vs : List ℚ) (a t e : ℚ) (w : Bool) (vr : Option ℚ),
      aggregate expected hs ts ps vs = .ok a t e w vr →
      0 < a ∧ w = hashrate_within_tolerance a expected := by
  intro expected hs ts ps vs a t e w vr h
  simp only [aggregate] at h
  split_ifs at h
  all_goals first
    | (obtain ⟨ha, -, -, hw, -⟩ := h
       subst ha
       exact ⟨by assumption, hw.symm⟩)
    | (simp only [IterResult.ok.injEq] at h
       obtain ⟨ha, -, -, hw, -⟩ := h
       subst ha
       exact ⟨by assumption, hw.symm⟩)
    | simp at h

/-- C10: with the fetch-failure fallback capability (`smallCoreCount = 0`,
`asicCount = 0`), the expected hashrate is `0` at every frequency, so every
iteration that completes successfully (hence with positive average hashrate)
is judged within tolerance, and the sweep's transition from it keeps the
voltage and raises the frequency (or stops at the ceiling) — the
raise-voltage/retreat-frequency backoff branch is never taken. -/
theorem C10_zero_capability_no_backoff :
    ∀ (v f : ℤ) (infos : List (Option SystemInfo)) (rs : List BenchResult)
      (a t e : ℚ) (w : Bool) (vr : Option ℚ),
      benchmark_iteration fallback_core_counts.1 fallback_core_counts.2 f infos =
        .ok a t e w vr →
      expected_hashrate f fallback_core_counts.1 fallback_core_counts.2 = 0
      ∧ 0 < a ∧ w = true
      ∧ sweepStep ⟨v, f, rs⟩ (.ok a t e w vr) =
          (if f + frequency_increment ≤ max_allowed_frequency then
            StepResult.next ⟨v, f + frequency_increment,
              rs ++ [{ coreVoltage := v, frequency := f, averageHashRate := a,
                       averageTemperature := t, efficiencyJTH := e, averageVRTemp := vr }]⟩
          else StepResult.halt
            (rs ++ [{ coreVoltage := v, frequency := f, averageHashRate := a,
                      averageTemperature := t, efficiencyJTH := e, averageVRTemp := vr }])) := by
  intro v f infos rs a t e w vr h
  have hexp : expected_hashrate f fallback_core_counts.1 fallback_core_counts.2 = 0 := by
    norm_num [expected_hashrate, fallback_core_counts]
  refine ⟨hexp, ?_⟩
  simp only [benchmark_iteration] at h
  cases hc : collectLoop infos [] [] [] [] with
  | fail r => rw [hc] at h; simp at h
  | pyError => rw [hc] at h; simp at h
  | done hs ts ps vs =>
  rw [hc] at h
  obtain ⟨hapos, hwdef⟩ := aggregate_ok_inv _ _ _ _ _ _ _ _ _ _ h
  rw [hexp] at hwdef
  have hw : w = true := by
    rw [hwdef]
    simp only [hashrate_within_tolerance, decide_eq_true_eq, ge_iff_le]
    nlinarith [hapos]
  subst hw
  refine ⟨hapos, rfl, ?_⟩
  rfl

/-- C10 witness: a 7-sample window completing successfully under the
fallback capability is judged within tolerance and the sweep raises only the
frequency. -/
theorem C10_zero_capability_no_backoff_witness :
    expected_hashrate 400 fallback_core_counts.1 fallback_core_counts.2 = 0
    ∧ (0 : ℚ) < 1 ∧ true = true
    ∧ sweepStep ⟨1150, 400, []⟩ (.ok 1 60 10000 true none) =
        (if (400 : ℤ) + frequency_increment ≤ max_allowed_frequency then
          StepResult.next ⟨1150, 400 + frequency_increment,
            [] ++ [{ coreVoltage := 1150, frequency := 400, averageHashRate := 1,
                     averageTemperature := 60, efficiencyJTH := 10000, averageVRTemp := none }]⟩
        else StepResult.halt
          ([] ++ [{ coreVoltage := 1150, frequency := 400, averageHashRate := 1,
                    averageTemperature := 60, efficiencyJTH := 10000, averageVRTemp := none }])) :=
  C10_zero_capability_no_backoff 1150 400
    (List.replicate 7
      (some { temp := some 60, vrTemp := none, voltage := some 5000,
              hashRate := some 1, power := some 10 })) [] 1 60 10000 true none
    (by
      have hcol : collectLoop (List.replicate 7
          (some { temp := some 60, vrTemp := none, voltage := some 5000,
                  hashRate := some 1, power := some 10 })) [] [] [] [] =
          .done [1,1,1,1,1,1,1] [60,60,60,60,60,60,60] [10,10,10,10,10,10,10] [] := by
        norm_num [collectLoop, sampleCheck, max_temp, min_input_voltage, max_input_voltage,
          max_power, List.replicate]
      have h1 : ([1,1,1,1,1,1,1] : List ℚ).mergeSort qle = [1,1,1,1,1,1,1] :=
        List.mergeSort_of_sorted (by decide)
      have h2 : ([60,60,60,60,60,60,60] : List ℚ).mergeSort qle = [60,60,60,60,60,60,60] :=
        List.mergeSort_of_sorted (by decide)
      simp only [benchmark_iteration, hcol]
      norm_num [aggregate, trimmed_hashrates, h1, h2, hashrate_within_tolerance,
        expected_hashrate, fallback_core_counts]
      intro h
      exact absurd (h (by simp) (by simp)) (by simp))

/-! ### C9: the final rankings are stable top-5 selections -/

lemma hashDesc_trans : ∀ (a b c : BenchResult), hashDesc a b → hashDesc b c → hashDesc a c := by
  intro a b c hab hbc
  simp only [hashDesc, decide_eq_true_eq] at *
  exact le_trans hbc hab

lemma hashDesc_total : ∀ (a b : BenchResult), hashDesc a b || hashDesc b a := by
  intro a b
  simpa [hashDesc] using le_total b.averageHashRate a.averageHashRate

lemma effAsc_trans : ∀ (a b c : BenchResult), effAsc a b → effAsc b c → effAsc a c := by
  intro a b c hab hbc
  simp only [effAsc, decide_eq_true_eq] at *
  exact le_trans hab hbc

lemma effAsc_total : ∀ (a b : BenchResult), effAsc a b || effAsc b a := by
  intro a b
  simpa [effAsc] using le_total a.efficiencyJTH b.efficiencyJTH

/-- C9: each ranking is the 5-element prefix of a rearrangement of the
index-tagged results list that is sorted by descending `averageHashRate`
(respectively ascending `efficiencyJTH`) with ties in the key ordered by the
original discovery index — Python's `sorted` is stable and never mutates its
input, which the permutation component records. -/
theorem C9_rankings_stable :
    ∀ rs : List BenchResult,
      (∃ tagged : List (ℕ × BenchResult),
        tagged.Perm rs.enum
        ∧ tagged.Pairwise (fun p q =>
            q.2.averageHashRate < p.2.averageHashRate
            ∨ (q.2.averageHashRate = p.2.averageHashRate ∧ p.1 ≤ q.1))
        ∧ top_5_results rs = (tagged.map (fun p => p.2)).take 5)
      ∧ (∃ tagged : List (ℕ × BenchResult),
        tagged.Perm rs.enum
        ∧ tagged.Pairwise (fun p q =>
            p.2.efficiencyJTH < q.2.efficiencyJTH
            ∨ (p.2.efficiencyJTH = q.2.efficiencyJTH ∧ p.1 ≤ q.1))
        ∧ top_5_efficient_results rs = (tagged.map (fun p => p.2)).take 5) := by
  intro rs
  constructor
  · refine ⟨(rs.enum).mergeSort (List.enumLE hashDesc), List.mergeSort_perm _ _, ?_, ?_⟩
    · refine (List.sorted_mergeSort (List.enumLE_trans hashDesc_trans)
        (List.enumLE_total hashDesc_total) rs.enum).imp ?_
      intro p q hpq
      simp only [List.enumLE] at hpq
      split_ifs at hpq with h1 h2
      · simp only [hashDesc, decide_eq_true_eq] at h1 h2 hpq
        exact Or.inr ⟨le_antisymm h1 h2, hpq⟩
      · simp only [hashDesc, decide_eq_true_eq] at h1 h2
        exact Or.inl (lt_of_not_le h2)
    · rw [top_5_results, ← List.mergeSort_enum]
  · refine ⟨(rs.enum).mergeSort (List.enumLE effAsc), List.mergeSort_perm _ _, ?_, ?_⟩
    · refine (List.sorted_mergeSort (List.enumLE_trans effAsc_trans)
        (List.enumLE_total effAsc_total) rs.enum).imp ?_
      intro p q hpq
      simp only [List.enumLE] at hpq
      split_ifs at hpq with h1 h2
      · simp only [effAsc, decide_eq_true_eq] at h1 h2 hpq
        exact Or.inr ⟨le_antisymm h1 h2, hpq⟩
      · simp only [effAsc, decide_eq_true_eq] at h1 h2
        exact Or.inl (lt_of_not_le h2)
    · rw [top_5_efficient_results, ← List.mergeSort_enum]
